import Mathlib

/-!
Shallow embedding of the summarization engine of `internal/summarize/summary.go`
(package `summarize` of the wechat-view repository), together with proofs about it.

Modelling conventions, used consistently below:

* Go `time.Time` values are modelled as `Option Int` — `some t` is the instant `t` in
  epoch seconds, `none` is Go's zero time (`IsZero`).  The RFC3339 string field
  `Message.Time` is embedded as its parse result (`none` when absent or unparsable),
  since `time.Parse` is standard-library code, not code of this repository.
  `time.Time.Local().Hour()` is modelled with a fixed UTC offset (the local zone is an
  environment constant; no claim depends on the concrete offset).
* Go `float64` arithmetic is modelled exactly over `ℚ`; `math.Round` (half away from
  zero) is `goRound` below.
* Go maps are modelled as insertion-ordered association lists; `bumpKey` is `m[k]++`.
* Go strings are Lean `String`s, i.e. sequences of runes; byte-level `strings.Contains`
  on valid UTF-8 with whole-rune needles coincides with the rune-level scan used here.
* The string constants are copied verbatim (code point by code point) from the source
  file of this repository.
-/

namespace Summarize

/-- Rune-level substring test: `listContains needle hay = true` iff `needle` occurs
contiguously in `hay` (the empty needle always occurs). -/
def listContains (needle : List Char) : List Char → Bool
  | [] => needle.isPrefixOf []
  | c :: t => needle.isPrefixOf (c :: t) || listContains needle t

/-- Models Go `strings.Contains s sub`. -/
def goContains (s sub : String) : Bool := listContains sub.data s.data

/-- Models Go `unicode.IsSpace` over the white-space repertoire relevant here. -/
def goIsSpace (c : Char) : Bool :=
  c = ' ' || c = '\t' || c = '\n' || c = '\u000B' || c = '\u000C' || c = '\r' ||
  c = '\u0085' || c = ' ' || c = ' ' ||
  (0x2000 ≤ c.toNat && c.toNat ≤ 0x200A) ||
  c = ' ' || c = ' ' || c = ' ' || c = ' ' || c = '　'

/-- Models Go `strings.TrimSpace`. -/
def goTrimSpace (s : String) : String :=
  String.mk (((s.data.dropWhile goIsSpace).reverse.dropWhile goIsSpace).reverse)

/-- Helper of `goFields`: split on white-space runs, accumulating the current word
reversed. -/
def fieldsAux : List Char → List Char → List String
  | [], cur => if cur.isEmpty then [] else [String.mk cur.reverse]
  | c :: t, cur =>
    if goIsSpace c then
      if cur.isEmpty then fieldsAux t [] else String.mk cur.reverse :: fieldsAux t []
    else fieldsAux t (c :: cur)

/-- Models Go `strings.Fields`. -/
def goFields (s : String) : List String := fieldsAux s.data []

/-- The trailing-punctuation cutset `,.;!?)]}` of `extractURLs`. -/
def trailPunct : List Char := [',', '.', ';', '!', '?', ')', ']', '\x7d']

/-- Models Go `strings.HasPrefix s pre`. -/
def goStartsWith (s pre : String) : Bool := pre.data.isPrefixOf s.data

/-- Models `strings.TrimRight(part, ",.;!?)]}")`. -/
def goTrimRightPunct (s : String) : String :=
  String.mk ((s.data.reverse.dropWhile (fun c => trailPunct.contains c)).reverse)

/-- ASCII lower-casing of one character (models `unicode.ToLower` over the repertoire
exercised here: the strings compared case-insensitively are ASCII, CJK or symbols). -/
def lowerChar (c : Char) : Char :=
  if 65 ≤ c.toNat && c.toNat ≤ 90 then Char.ofNat (c.toNat + 32) else c

/-- Models Go `strings.ToLower`. -/
def toLowerStr (s : String) : String := String.mk (s.data.map lowerChar)

/-- Models `unicode.Is(unicode.Han, r)` over the main CJK ranges. -/
def isHan (c : Char) : Bool :=
  (0x4E00 ≤ c.toNat && c.toNat ≤ 0x9FFF) || (0x3400 ≤ c.toNat && c.toNat ≤ 0x4DBF) ||
  (0x20000 ≤ c.toNat && c.toNat ≤ 0x2A6DF) || (0xF900 ≤ c.toNat && c.toNat ≤ 0xFA6D)

/-- The pattern list of `nameReplacer` (each pattern is replaced by the empty string);
copied code point by code point from the source. -/
def nameReplacerPatterns : List (List Char) :=
  [(" ").data, (" ").data, (" ").data, (" ").data, (" ").data,
   (" ").data, ("​").data, ("Â·").data, ("â€¢").data,
   ("ğŸ”†").data, ("âœ¨").data,
   ("ğŸš€").data]

/-- Models `strings.Replacer.Replace` for pattern lists in which no pattern is a
prefix of another (as is the case for `nameReplacerPatterns`): scan left to right,
delete a matching pattern, keep the character otherwise.  Structural recursion on a
fuel counter that starts at the length of the text (every step consumes at least one
character, so the fuel never runs out). -/
def applyReplacerAux (pats : List (List Char)) : Nat → List Char → List Char
  | 0, _ => []
  | _, [] => []
  | fuel + 1, c :: t =>
    match pats.find? (fun p => !p.isEmpty && p.isPrefixOf (c :: t)) with
    | some p => applyReplacerAux pats fuel (t.drop (p.length - 1))
    | none => c :: applyReplacerAux pats fuel t

def applyReplacer (pats : List (List Char)) (l : List Char) : List Char :=
  applyReplacerAux pats l.length l

/-- Characters kept by `normalizeName`: models `unicode.IsLetter`/`unicode.IsDigit`
over the repertoire exercised here (ASCII and CJK), plus underscore and Han. -/
def keepNameChar (c : Char) : Bool := c.isAlpha || c.isDigit || c = '_' || isHan c

/-- Embeds `normalizeName` of summary.go. -/
def normalizeName (s : String) : String :=
  if s = "" then ""
  else
    let lower := toLowerStr (goTrimSpace s)
    let clean := applyReplacer nameReplacerPatterns lower.data
    String.mk (clean.filter keepNameChar)

/-- Embeds `runeLen` of summary.go (number of runes). -/
def runeLen (s : String) : Nat := s.length

end Summarize

namespace Summarize

/-- The positive text lexicon, copied code point by code point from the source. -/
def positiveLexicons : List String :=
  ["å“ˆå“ˆ", "[å¾®ç¬‘]",
   "ğŸ‘", "èµ", "æ„Ÿè°¢",
   "ç»™åŠ›", "ç¨³",
   "å¤ªå¥½äº†", "nice", "great", "perfect",
   "çˆ½", "ç‰›é€¼",
   "åŠ æ²¹", "ğŸ‰"]

/-- The negative text lexicon, copied code point by code point from the source. -/
def negativeLexicons : List String :=
  ["[æ‚è„¸]", "[æ³ª]", "[æ±—]",
   "å“­", "éº»çƒ¦", "æ™•",
   "ç³Ÿç³•", "ä¸è¡Œ",
   "ç¿»è½¦", "å´©",
   "éº»äº†", "éš¾é¡¶", "bug",
   "é—®é¢˜", "??", "ï¼Ÿï¼Ÿ",
   "ğŸ™ˆ", "ğŸ˜­", "ğŸ˜“",
   "ğŸ˜¡"]

/-- The positive emoji set, copied from the source. -/
def positiveEmojiSet : List String :=
  ["å¾®ç¬‘", "å¼º", "èµ", "OK"]

/-- The negative emoji set, copied from the source. -/
def negativeEmojiSet : List String :=
  ["æ‚è„¸", "æ±—", "æ³ª",
   "æŠ“ç‹‚", "æ€’"]

/-- The English stopword set, copied from the source. -/
def stopwordEN : List String :=
  ["the", "of", "and", "to", "in", "is", "for", "on", "with", "this", "that", "are", "be",
   "as", "by", "at", "from", "or", "not", "you", "your"]

/-- The Chinese stopword set, copied code point by code point from the source. -/
def stopwordCN : List String :=
  ["æˆ‘ä»¬", "ä½ ä»¬",
   "ä»–ä»¬", "è¿™ä¸ª",
   "é‚£ä¸ª", "ä¸€ä¸ª",
   "ä»¥åŠ", "å› ä¸º",
   "æ‰€ä»¥", "è€Œä¸”",
   "å¯ä»¥", "çš„è¯",
   "å¦‚æœ", "å°±æ˜¯",
   "ä¸æ˜¯", "æ²¡æœ‰",
   "åº”è¯¥", "éœ€è¦",
   "å¯èƒ½", "ç›¸å…³",
   "è¿›è¡Œ", "å…³äº",
   "è¿˜æœ‰", "å·²ç»",
   "ä»€ä¹ˆ", "æ€ä¹ˆ",
   "è¿™ç§", "ä¸€äº›",
   "å¤§å®¶", "è‡ªå·±",
   "ä¸€ä¸‹", "è¿˜æ˜¯",
   "å¥½çš„", "çš„", "äº†",
   "åœ¨", "æ˜¯", "å’Œ", "ä¸",
   "ä¹Ÿ", "éƒ½", "å¹¶",
   "å¾ˆ", "æ›´", "åŠ", "è¢«",
   "å°±", "è€Œ"]

/-- The character set of `strings.ContainsAny(text, ...)` used for the exclamation
counter, copied code point by code point from the source. -/
def exclaimChars : List Char := ['!', 'ï', '¼']

end Summarize

namespace Summarize

/-- Embeds `chatlog.Message` (internal/chatlog/client.go), restricted to the fields the
summarizer reads.  `Timestamp`/`CreateTime` are epoch numbers as in the source; `Time`
is the RFC3339 field embedded as its parse result (see the modelling notes). -/
structure Reference where
  SenderName : String
  Content : String
deriving Repr, DecidableEq

/-- Embeds `chatlog.Share`, restricted to the field the summarizer reads. -/
structure Share where
  URL : String
deriving Repr, DecidableEq

structure Message where
  Sender : String
  SenderName : String
  From : String
  Nickname : String
  Timestamp : Int
  CreateTime : Int
  Time : Option Int
  Content : String
  Text : String
  MsgType : Int
  Mentions : List String
  Emojis : List String
  Reference : Option Summarize.Reference
  IsQuestion : Bool
  Share : Option Summarize.Share
deriving Repr, DecidableEq

/-- A message with every field absent/zero, for building concrete inputs. -/
def blankMessage : Message :=
  { Sender := "", SenderName := "", From := "", Nickname := "", Timestamp := 0,
    CreateTime := 0, Time := none, Content := "", Text := "", MsgType := 0,
    Mentions := [], Emojis := [], Reference := none, IsQuestion := false, Share := none }

structure KV where
  Key : String
  Count : Nat
deriving Repr, DecidableEq

structure Topic where
  Name : String
  Keywords : List String
  Count : Nat
  Representative : String
deriving Repr, DecidableEq

structure GroupVibes where
  Score : Int
  Activity : ℚ
  Sentiment : ℚ
  InfoDensity : ℚ
  Controversy : ℚ
  Tone : String
  Reasons : List String
deriving Repr, DecidableEq

structure ReplyItem where
  Questioner : String
  Question : String
  AskedAt : String
  Mentions : List String
  AgeMinutes : ℚ
  ResponseMinutes : ℚ
  Responders : List String
deriving Repr, DecidableEq

structure ReplyDebt where
  Outstanding : List ReplyItem
  Resolved : List ReplyItem
  AvgResponseMinutes : ℚ
  BestResponseHours : List Int
deriving Repr, DecidableEq

structure Summary where
  TotalMessages : Nat
  UniqueSenders : Nat
  TopSenders : List KV
  TopLinks : List String
  HourlyHistogram : List Nat
  Keywords : List KV
  PeakHour : Nat
  Highlights : List String
  Topics : List Topic
  ImageCount : Nat
  GroupVibes : Summarize.GroupVibes
  ReplyDebt : Summarize.ReplyDebt
deriving Repr, DecidableEq

structure VibeTracker where
  infoDense : Nat
  mentionMsg : Nat
  questionMsg : Nat
  exclaimMsg : Nat
  sentimentPos : ℚ
  sentimentNeg : ℚ
deriving Repr, DecidableEq

structure QuestionStatus where
  Index : Nat
  Message : Summarize.Message
  AskedAt : Option Int
  Mentions : List String
  NormalizedQuestioner : String
  Resolved : Bool
  ResponseMinutes : ℚ
  ResponseHour : Int
  Responders : List (String × String)
deriving Repr, DecidableEq

/-- Go map increment `m[k]++`, on an insertion-ordered association list. -/
def bumpKey {κ : Type} [DecidableEq κ] : List (κ × Nat) → κ → List (κ × Nat)
  | [], k => [(k, 1)]
  | (k0, c) :: rest, k =>
    if k0 = k then (k0, c + 1) :: rest else (k0, c) :: bumpKey rest k

/-- Go map assignment `m[k] = v`, on an insertion-ordered association list. -/
def respInsert : List (String × String) → String → String → List (String × String)
  | [], k, v => [(k, v)]
  | (k0, v0) :: rest, k, v =>
    if k0 = k then (k0, v) :: rest else (k0, v0) :: respInsert rest k v

/-- Embeds `senderDisplay` of summary.go. -/
def senderDisplay (m : Message) : String :=
  if goTrimSpace m.SenderName ≠ "" then m.SenderName
  else if goTrimSpace m.Nickname ≠ "" then m.Nickname
  else if goTrimSpace m.Sender ≠ "" then m.Sender
  else if goTrimSpace m.From ≠ "" then m.From
  else ""

/-- Helper of `uniqueStrings`, carrying the `seen` key set. -/
def uniqueStringsAux : List String → List String → List String
  | [], _ => []
  | x :: t, seen =>
    let trim := goTrimSpace x
    if trim = "" then uniqueStringsAux t seen
    else
      let key := normalizeName trim
      if key = "" then uniqueStringsAux t seen
      else if seen.contains key then uniqueStringsAux t seen
      else trim :: uniqueStringsAux t (key :: seen)

/-- Embeds `uniqueStrings` of summary.go (Go's `nil` result is the empty list). -/
def uniqueStrings (l : List String) : List String := uniqueStringsAux l []

/-- Order-preserving dedup of `extractURLs`. -/
def dedupStrings : List String → List String → List String
  | [], _ => []
  | x :: t, seen =>
    if seen.contains x then dedupStrings t seen else x :: dedupStrings t (x :: seen)

/-- Embeds `extractURLs` of summary.go. -/
def extractURLs (s : String) : List String :=
  let urls := (goFields s).filterMap (fun part =>
    if goStartsWith part "http://" || goStartsWith part "https://" then
      some (goTrimRightPunct part)
    else none)
  dedupStrings urls []

/-- Embeds `asciiTokens` of summary.go. -/
def asciiTokens (s : String) : List String :=
  goFields (String.mk (s.data.map (fun r =>
    if 127 < r.toNat then ' '
    else if (65 ≤ r.toNat && r.toNat ≤ 90) || (97 ≤ r.toNat && r.toNat ≤ 122) ||
            (48 ≤ r.toNat && r.toNat ≤ 57) then r
    else ' ')))

/-- Bigrams and trigrams of one contiguous Han run (`flush` of `chineseGrams`). -/
def gramsOf (seq : List Char) : List String :=
  if 2 ≤ seq.length then
    (List.range (seq.length - 1)).map (fun i => String.mk ((seq.drop i).take 2)) ++
    (List.range (seq.length - 2)).map (fun i => String.mk ((seq.drop i).take 3))
  else []

/-- Maximal Han runs of a character list, in order (possibly empty runs at breaks,
which contribute no grams). -/
def hanRuns : List Char → List Char → List (List Char)
  | [], cur => [cur.reverse]
  | c :: t, cur => if isHan c then hanRuns t (c :: cur) else cur.reverse :: hanRuns t []

/-- Embeds `chineseGrams` of summary.go. -/
def chineseGrams (s : String) : List String := (hanRuns s.data []).flatMap gramsOf

/-- The ms→s normalization `if ts > 1_000_000_000_000 { ts = ts / 1000 }`. -/
def normMs (ts : Int) : Int := if 1000000000000 < ts then ts / 1000 else ts

/-- Embeds `messageTime` of summary.go (see the modelling notes for the `Time` field). -/
def messageTime (m : Message) : Option Int :=
  if 0 < m.Timestamp then some (normMs m.Timestamp)
  else if 0 < m.CreateTime then some (normMs m.CreateTime)
  else m.Time

/-- Models `time.Unix(t, 0).Local().Hour()` with a fixed UTC offset. -/
def hourOf (t : Int) : Int := (t % 86400) / 3600

/-- The timestamp the hour histogram is derived from: `ts := m.Timestamp; if ts == 0
{ ts = m.CreateTime }`. -/
def histTs (m : Message) : Int := if m.Timestamp ≠ 0 then m.Timestamp else m.CreateTime

/-- Embeds `clamp01` of summary.go. -/
def clamp01 (v : ℚ) : ℚ := if v < 0 then 0 else if 1 < v then 1 else v

/-- Models Go `math.Round` (round half away from zero) on the exact rationals. -/
def goRound (x : ℚ) : ℤ := if x < 0 then -⌊-x + 1 / 2⌋ else ⌊x + 1 / 2⌋

/-- Embeds `roundTo` of summary.go (call sites only use non-negative digit counts). -/
def roundTo (v : ℚ) (digits : Nat) : ℚ :=
  let factor : ℚ := 10 ^ digits
  (goRound (v * factor) : ℚ) / factor

/-- The first-match-then-stop lexicon scan of `sentimentSignals`: one loop iteration
per token, skipping empty tokens, stopping at the first containment hit. -/
def lexiconHit (text lower : String) : List String → Bool
  | [] => false
  | token :: rest =>
    if token = "" then lexiconHit text lower rest
    else if goContains text token || goContains lower token then true
    else lexiconHit text lower rest

/-- Embeds `sentimentSignals` of summary.go. -/
def sentimentSignals (text : String) (emojis : List String) : ℚ × ℚ :=
  if text = "" && emojis.isEmpty then (0, 0)
  else
    let lower := toLowerStr text
    let pos0 : ℚ := if lexiconHit text lower positiveLexicons then 1 else 0
    let neg0 : ℚ := if lexiconHit text lower negativeLexicons then 1 else 0
    emojis.foldl (fun pn e0 =>
      let e := goTrimSpace e0
      if e = "" then pn
      else
        ((if positiveEmojiSet.contains e then pn.1 + 0.5 else pn.1),
         (if negativeEmojiSet.contains e then pn.2 + 0.5 else pn.2))) (pos0, neg0)

/-- Embeds `shouldTrackQuestion` of summary.go. -/
def shouldTrackQuestion (m : Message) (text : String) : Bool :=
  if !m.IsQuestion then false
  else if m.MsgType ≠ 0 && m.MsgType ≠ 1 && m.MsgType ≠ 49 then false
  else if goTrimSpace text = "" then false
  else if runeLen text < 2 then false
  else true

/-- Embeds `matchesQuestionResponse` of summary.go (the `text` parameter is unused in
the source as well). -/
def matchesQuestionResponse (msg : Message) (q : QuestionStatus) (_text : String) : Bool :=
  let questioner :=
    if q.NormalizedQuestioner = "" then normalizeName (senderDisplay q.Message)
    else q.NormalizedQuestioner
  if questioner = "" then false
  else
    let responderName := normalizeName (senderDisplay msg)
    if responderName = "" || responderName = questioner then false
    else
      (match msg.Reference with
       | some ref =>
         if normalizeName ref.SenderName = questioner then true
         else
           let refContent := goTrimSpace ref.Content
           let questionContent := goTrimSpace q.Message.Content
           refContent ≠ "" && questionContent ≠ "" &&
             (goContains questionContent refContent || goContains refContent questionContent)
       | none => false) ||
      msg.Mentions.any (fun mention => normalizeName mention = questioner) ||
      (!q.Mentions.isEmpty && q.Mentions.any (fun target => normalizeName target = responderName))

end Summarize

namespace Summarize

/-- Models `%02d` of `fmt.Sprintf` for the hour values used here. -/
def pad2 (n : Nat) : String := if n < 10 then "0" ++ toString n else toString n

/-- The `sprintf` helper of summary.go trims the formatted result; these builders embed
its concrete call sites (format strings copied code point by code point). -/
def hlHeader (total unique peak : Nat) : String :=
  goTrimSpace ("\u00E6\u00B6\u02C6\u00E6\u00AF " ++ toString total ++ " \u00E6\u00A1\u00EF\u00BC\u0152\u00E6\u00B4\u00BB\u00E8\u00B7\u0192 " ++ toString unique ++
    " \u00E4\u00BA\u00BA\u00EF\u00BC\u203A\u00E5\u00B3\u00B0\u00E5\u20AC\u00BC " ++ pad2 peak ++ ":00-" ++ pad2 peak ++ ":59")

/-- The `"%s(%d)"` part of the top-senders bullet. -/
def kvPart (kv : KV) : String := goTrimSpace (kv.Key ++ "(" ++ toString kv.Count ++ ")")

/-- The top-senders bullet (built with `+` and `strings.Join` in the source). -/
def hlSenders (parts : List String) : String :=
  "Top \u00E5\u2018\u00E9\u20AC\u00E8\u20AC\u2026\u00EF\u00BC\u0161" ++ String.intercalate "\u00E3\u20AC" parts

/-- The topics bullet. -/
def hlTopics (names : List String) : String :=
  "\u00E7\u0192\u00AD\u00E9\u2014\u00A8\u00E4\u00B8\u00BB\u00E9\u00A2\u02DC\u00EF\u00BC\u0161" ++ String.intercalate "\u00E3\u20AC" names

/-- The links bullet with a host sample. -/
def hlLinksHost (n : Nat) (host : String) : String :=
  goTrimSpace ("\u00E7\u0192\u00AD\u00E9\u2014\u00A8\u00E9\u201C\u00BE\u00E6\u00A5 " ++ toString n ++ " \u00E4\u00B8\u00AA\u00EF\u00BC\u0152\u00E4\u00BE\u2039\u00E5\u00A6\u201A " ++ host ++ "")

/-- The links bullet without a host sample. -/
def hlLinks (n : Nat) : String :=
  goTrimSpace ("\u00E7\u0192\u00AD\u00E9\u2014\u00A8\u00E9\u201C\u00BE\u00E6\u00A5 " ++ toString n ++ " \u00E4\u00B8\u00AA")

/-- The images bullet. -/
def hlImages (n : Nat) : String :=
  goTrimSpace ("\u00E5\u203A\u00BE\u00E7\u2030\u2021 " ++ toString n ++ " \u00E5\u00BC\u00A0")

/-- The tone labels of `buildGroupVibes`, copied from the source. -/
def toneSteady : String := "\u00E8\u00AE\u00A8\u00E8\u00AE\u00BA\u00E5\u00B9\u00B3\u00E7\u00A8\u00B3"
def toneHigh : String := "\u00E7\u00BE\u00A4\u00E6\u00B0\u203A\u00E9\u00AB\u02DC\u00E6\u00B6\u00A8"
def toneActive : String := "\u00E6\u00B4\u00BB\u00E8\u00B7\u0192\u00E8\u2030\u00AF\u00E5\u00A5\u00BD"
def toneCold : String := "\u00E6\u00B0\u203A\u00E5\u203A\u00B4\u00E5\u00E5\u2020\u00B7"

/-- The reason strings of `buildGroupVibes`, copied from the source. -/
def rsnActivityHigh (total unique : Nat) : String :=
  goTrimSpace ("\u00E6\u00B4\u00BB\u00E8\u00B7\u0192\u00E5\u00BA\u00A6\u00E9\u00AB\u02DC\u00EF\u00BC\u02C6" ++ toString total ++ " \u00E6\u00A1\u00E3\u20AC" ++ toString unique ++ " \u00E4\u00BA\u00BA\u00E5\u201A\u00E4\u00B8\u00EF\u00BC\u2030")
def rsnActivityLow : String := "\u00E6\u00B6\u02C6\u00E6\u00AF\u00E9\u2021\u00E5\u00E4\u00BD\u00EF\u00BC\u0152\u00E8\u00AE\u00A8\u00E8\u00AE\u00BA\u00E7\u0192\u00AD\u00E5\u00BA\u00A6\u00E4\u00B8\u00E8\u00B6\u00B3"
def rsnSentimentHigh : String := "\u00E6\u0192\u2026\u00E7\u00BB\u00AA\u00E5\u00E6\u00AD\u00A3\u00E5\u2018\u00EF\u00BC\u0152\u00E4\u00BA\u2019\u00E5\u0160\u00A8\u00E8\u00BD\u00BB\u00E6\u00BE"
def rsnSentimentLow : String := "\u00E8\u00B4\u0178\u00E9\u00A2/\u00E5\u00E6\u00A7\u00BD\u00E5\u2020\u2026\u00E5\u00AE\u00B9\u00E5\u00E5\u00A4\u0161"
def rsnInfoDense : String := "\u00E4\u00BF\u00A1\u00E6\u00AF\u00E5\u00AF\u2020\u00E5\u00BA\u00A6\u00E9\u00AB\u02DC\u00EF\u00BC\u02C6\u00E9\u201C\u00BE\u00E6\u00A5\u00E6\u02C6\u2013\u00E9\u2022\u00BF\u00E6\u2013\u2021\u00E8\u00BE\u0192\u00E5\u00A4\u0161\u00EF\u00BC\u2030"
def rsnControversyHigh : String := "\u00E4\u00BA\u2030\u00E8\u00AE\u00AE\u00E5\u00BA\u00A6\u00E9\u00AB\u02DC\u00EF\u00BC\u0152\u00E9\u0153\u20AC\u00E8\u00A6\u00E5\u2026\u00B3\u00E6\u00B3\u00A8\u00E5\u2026\u00B1\u00E8\u00AF\u2020"
def rsnControversyLow : String := "\u00E8\u00AE\u00A8\u00E8\u00AE\u00BA\u00E8\u00BE\u0192\u00E6\u00B8\u00A9\u00E5\u2019\u0152\u00EF\u00BC\u0152\u00E5\u00AF\u00E9\u20AC\u201A\u00E5\u00BA\u00A6\u00E5\u00BC\u2022\u00E5\u00AF\u00BC\u00E8\u00A7\u201A\u00E7\u201A\u00B9\u00E7\u00A2\u00B0\u00E6\u2019"

/-- The truncation ellipsis of `trimQuestionText`, copied from the source. -/
def questionEllipsis : String := "\u00E2\u20AC\u00A6"

end Summarize

namespace Summarize

/-- Stable insertion into a list sorted by the strict comparator `less`. -/
def insertSorted {α : Type} (less : α → α → Bool) (x : α) : List α → List α
  | [] => [x]
  | y :: t => if less y x then y :: insertSorted less x t else x :: y :: t

/-- Stable sort by the strict comparator `less`; models `sort.Slice` (for the
comparators of summary.go ties either cannot occur or, as in `topKKeys`, are kept in
slice order exactly as Go's small-slice insertion sort keeps them). -/
def sortByLess {α : Type} (less : α → α → Bool) : List α → List α
  | [] => []
  | x :: t => insertSorted less x (sortByLess less t)

/-- Embeds `topK` of summary.go (count descending, ties by key ascending). -/
def topK (m : List (String × Nat)) (k : Nat) : List KV :=
  let arr := m.map (fun p => KV.mk p.1 p.2)
  let sorted := sortByLess
    (fun a b => if a.Count = b.Count then decide (a.Key < b.Key) else decide (b.Count < a.Count))
    arr
  sorted.take k

/-- Embeds `topKKeys` of summary.go (count descending, no tie-break). -/
def topKKeys (m : List (String × Nat)) (k : Nat) : List String :=
  let sorted := sortByLess (fun a b => decide (b.2 < a.2)) m
  (sorted.take k).map (fun p => p.1)

/-- Models `sort.Strings` (ascending). -/
def sortStrings (l : List String) : List String :=
  sortByLess (fun a b => decide (a < b)) l

/-- Embeds `bestHours` of summary.go. -/
def bestHours (counts : List (Int × Nat)) (limit : Nat) : List Int :=
  if counts.isEmpty || limit = 0 then []
  else
    let arr := counts.filter (fun p => decide (0 ≤ p.1))
    if arr.isEmpty then []
    else
      let sorted := sortByLess
        (fun a b => if a.2 = b.2 then decide (a.1 < b.1) else decide (b.2 < a.2)) arr
      let cut := if 0 < limit ∧ limit < sorted.length then sorted.take limit else sorted
      cut.map (fun p => p.1)

/-- Embeds `trimQuestionText` of summary.go. -/
def trimQuestionText (m : Message) : String :=
  let text0 := if m.Content ≠ "" then m.Content else m.Text
  let text1 := goTrimSpace text0
  let text2 :=
    if text1 = "" then
      match m.Reference with
      | some ref => goTrimSpace ref.Content
      | none => text1
    else text1
  if text2 = "" then ""
  else if 120 < text2.length then String.mk (text2.data.take 120) ++ questionEllipsis
  else text2

/-- The text resolution `text := m.Content; if text == "" { text = m.Text }` of the
main loop. -/
def resolveText (m : Message) : String := if m.Content ≠ "" then m.Content else m.Text

/-- The time guard of the resolution loop: the negation of
`msgTime.IsZero() || (!q.AskedAt.IsZero() && msgTime.Before(q.AskedAt))`. -/
def timeGate (t a : Option Int) : Bool :=
  match t with
  | none => false
  | some tv =>
    match a with
    | none => true
    | some av => decide (av ≤ tv)

/-- The ledger entry appended by `BuildSummary` for a tracked question. -/
def mkEntry (idx : Nat) (m : Message) (t : Option Int) : QuestionStatus :=
  { Index := idx, Message := m, AskedAt := t, Mentions := uniqueStrings m.Mentions,
    NormalizedQuestioner := normalizeName (senderDisplay m),
    Resolved := false, ResponseMinutes := 0, ResponseHour := 0, Responders := [] }

/-- One iteration of the resolution loop of `BuildSummary` (lines 162–189), applied to
a single ledger entry. -/
def resolveOne (idx : Nat) (m : Message) (t : Option Int) (text : String)
    (q : QuestionStatus) : QuestionStatus :=
  if q.Resolved then q
  else if idx ≤ q.Index then q
  else if !timeGate t q.AskedAt then q
  else if matchesQuestionResponse m q text then
    { q with
      Resolved := true
      ResponseMinutes :=
        match t, q.AskedAt with
        | some tv, some av =>
          if av < tv then ((tv - av : Int) : ℚ) / 60 else q.ResponseMinutes
        | _, _ => q.ResponseMinutes
      ResponseHour := match t with | none => -1 | some tv => hourOf tv
      Responders :=
        let display := senderDisplay m
        if display ≠ "" then respInsert q.Responders (normalizeName display) display
        else q.Responders }
  else q

/-- Increment slot `i` of the histogram. -/
def bumpAt : List Nat → Nat → List Nat
  | [], _ => []
  | x :: t, 0 => (x + 1) :: t
  | x :: t, i + 1 => x :: bumpAt t i

/-- The slot index `time.Unix(ts, 0).Local().Hour()` as a natural number. -/
def hourIdx (t : Int) : Nat := (hourOf t).toNat

/-- The histogram update of the main loop (lines 110–121). -/
def histUpdate (hist : List Nat) (m : Message) : List Nat :=
  let ts := histTs m
  if 0 < ts then bumpAt hist (hourIdx (normMs ts)) else hist

/-- The tokenization step of the main loop (lines 202–215). -/
def tokensFold (tc : List (String × Nat)) (text : String) : List (String × Nat) :=
  let tc1 := (asciiTokens text).foldl (fun acc tok0 =>
    let tok := toLowerStr tok0
    if stopwordEN.contains tok || tok.length ≤ 2 then acc else bumpKey acc tok) tc
  (chineseGrams text).foldl (fun acc tok =>
    if stopwordCN.contains tok then acc else bumpKey acc tok) tc1

/-- The mutable state carried by the single pass of `BuildSummary`. -/
structure PassState where
  senderCount : List (String × Nat)
  linkCount : List (String × Nat)
  tokenCount : List (String × Nat)
  messagesText : List String
  analytics : VibeTracker
  questions : List QuestionStatus
  lastTime : Option Int
  hist : List Nat
  imageCount : Nat
deriving Repr, DecidableEq

/-- The initial pass state. -/
def initState : PassState :=
  { senderCount := [], linkCount := [], tokenCount := [], messagesText := [],
    analytics := ⟨0, 0, 0, 0, 0, 0⟩, questions := [], lastTime := none,
    hist := List.replicate 24 0, imageCount := 0 }

/-- One iteration of the main loop of `BuildSummary` (lines 103–216), in source
order: sender count, histogram, text/links/media, vibe signals, last-time update,
resolution sweep over the open ledger, question tracking, tokenization. -/
def stepMessage (st : PassState) (idx : Nat) (m : Message) : PassState :=
  let s := senderDisplay m
  let text := resolveText m
  let foundLinks := extractURLs text ++
    (match m.Share with
     | some sh => if sh.URL ≠ "" then [sh.URL] else []
     | none => [])
  let posneg := sentimentSignals text m.Emojis
  let msgTime := messageTime m
  { senderCount := if s ≠ "" then bumpKey st.senderCount s else st.senderCount
    linkCount := foundLinks.foldl bumpKey st.linkCount
    tokenCount := tokensFold st.tokenCount text
    messagesText := if text ≠ "" then st.messagesText ++ [text] else st.messagesText
    analytics :=
      { infoDense :=
          if !foundLinks.isEmpty || 80 < runeLen text || m.MsgType = 49 then
            st.analytics.infoDense + 1
          else st.analytics.infoDense
        mentionMsg :=
          if !m.Mentions.isEmpty then st.analytics.mentionMsg + 1 else st.analytics.mentionMsg
        questionMsg :=
          if m.IsQuestion then st.analytics.questionMsg + 1 else st.analytics.questionMsg
        exclaimMsg :=
          if text.data.any (fun c => exclaimChars.contains c) then st.analytics.exclaimMsg + 1
          else st.analytics.exclaimMsg
        sentimentPos := st.analytics.sentimentPos + posneg.1
        sentimentNeg := st.analytics.sentimentNeg + posneg.2 }
    questions :=
      (st.questions.map (resolveOne idx m msgTime text)) ++
      (if shouldTrackQuestion m text then [mkEntry idx m msgTime] else [])
    lastTime :=
      match msgTime with
      | none => st.lastTime
      | some tv =>
        match st.lastTime with
        | none => some tv
        | some l => if l < tv then some tv else st.lastTime
    hist := histUpdate st.hist m
    imageCount := if m.MsgType = 3 then st.imageCount + 1 else st.imageCount }

/-- The main loop `for idx, orig := range msgs` from a given state and start index. -/
def passFrom (st : PassState) (idx : Nat) : List Message → PassState
  | [] => st
  | m :: rest => passFrom (stepMessage st idx m) (idx + 1) rest

/-- The state after the single pass of `BuildSummary` over `msgs`. -/
def passState (msgs : List Message) : PassState := passFrom initState 0 msgs

end Summarize

namespace Summarize

/-- The peak-hour scan of `BuildSummary` (lines 218–227): first index of the strict
maximum, 0 for an all-zero histogram. -/
def peakHourOf (hist : List Nat) : Nat :=
  (hist.foldl
    (fun (p : Nat × Nat × Nat) v =>
      if p.2.2 < v then (p.1 + 1, p.1, v) else (p.1 + 1, p.2.1, p.2.2))
    (0, 0, 0)).2.1

/-- Modelled from Go's net/url library (not part of this repository): for the absolute
URLs this engine extracts, `url.Parse(u).Host` is the text between `://` and the next
`/`, `?` or `#` (empty when there is no scheme separator, in which case the source
takes the host-less branch). -/
def afterSchemeAux : List Char → Option (List Char)
  | [] => none
  | c :: t =>
    if [':', '/', '/'].isPrefixOf (c :: t) then some (t.drop 2) else afterSchemeAux t

def urlHost (u : String) : String :=
  match afterSchemeAux u.data with
  | none => ""
  | some rest => String.mk (rest.takeWhile (fun c => c ≠ '/' && c ≠ '?' && c ≠ '#'))

/-- Embeds `buildHighlights` of summary.go. -/
def buildHighlights (s : Summary) : List String :=
  [hlHeader s.TotalMessages s.UniqueSenders s.PeakHour] ++
  (if !s.TopSenders.isEmpty then [hlSenders ((s.TopSenders.take 3).map kvPart)] else []) ++
  (if !s.Topics.isEmpty then [hlTopics ((s.Topics.take 3).map Topic.Name)] else []) ++
  (if !s.TopLinks.isEmpty then
    [match s.TopLinks.head? with
     | some u => if urlHost u ≠ "" then hlLinksHost s.TopLinks.length (urlHost u)
                 else hlLinks s.TopLinks.length
     | none => hlLinks s.TopLinks.length]
   else []) ++
  (if 0 < s.ImageCount then [hlImages s.ImageCount] else [])

/-- The `activity` sub-score of `buildGroupVibes`. -/
def vibeActivity (sum : Summary) : ℚ :=
  clamp01 ((sum.TotalMessages : ℚ) / 80 + (sum.UniqueSenders : ℚ) / 25)

/-- The `sentiment` sub-score of `buildGroupVibes` (`total` is `float64(sum.TotalMessages)`). -/
def vibeSentiment (sum : Summary) (analytics : VibeTracker) : ℚ :=
  clamp01 (0.5 + (analytics.sentimentPos - analytics.sentimentNeg) /
    ((sum.TotalMessages : ℚ) * 1.5))

/-- The `infoDensity` sub-score of `buildGroupVibes`. -/
def vibeInfoDensity (sum : Summary) (analytics : VibeTracker) : ℚ :=
  clamp01 ((analytics.infoDense : ℚ) / (sum.TotalMessages : ℚ))

/-- The `controversy` sub-score of `buildGroupVibes`. -/
def vibeControversy (sum : Summary) (analytics : VibeTracker) : ℚ :=
  clamp01 (((analytics.questionMsg + analytics.mentionMsg + analytics.exclaimMsg : Nat) : ℚ) /
    ((sum.TotalMessages : ℚ) * 1.0))

/-- The `balanced` score derived from `controversy` in `buildGroupVibes`. -/
def vibeBalanced (controversy : ℚ) : ℚ := clamp01 (1 - |0.35 - controversy| / 0.35)

/-- Embeds `buildGroupVibes` of summary.go (float64 arithmetic carried exactly on ℚ). -/
def buildGroupVibes (sum : Summary) (analytics : VibeTracker) : GroupVibes :=
  if sum.TotalMessages = 0 then
    { Score := 0, Activity := 0, Sentiment := 0, InfoDensity := 0, Controversy := 0,
      Tone := "", Reasons := [] }
  else
    let activity := vibeActivity sum
    let sentiment := vibeSentiment sum analytics
    let infoDensity := vibeInfoDensity sum analytics
    let controversy := vibeControversy sum analytics
    let balanced := vibeBalanced controversy
    let score : ℤ :=
      goRound ((activity * 0.35 + sentiment * 0.3 + infoDensity * 0.2 + balanced * 0.15) * 100)
    let tone :=
      if 85 ≤ score then toneHigh
      else if 70 ≤ score then toneActive
      else if score ≤ 40 then toneCold
      else toneSteady
    let reasons :=
      (if (0.7 : ℚ) ≤ activity then [rsnActivityHigh sum.TotalMessages sum.UniqueSenders]
       else if activity ≤ 0.3 then [rsnActivityLow] else []) ++
      (if (0.6 : ℚ) ≤ sentiment then [rsnSentimentHigh]
       else if sentiment ≤ 0.4 then [rsnSentimentLow] else []) ++
      (if (0.5 : ℚ) ≤ infoDensity then [rsnInfoDense] else []) ++
      (if (0.55 : ℚ) ≤ controversy then [rsnControversyHigh]
       else if controversy ≤ 0.2 then [rsnControversyLow] else [])
    { Score := score, Activity := roundTo activity 2, Sentiment := roundTo sentiment 2,
      InfoDensity := roundTo infoDensity 2, Controversy := roundTo controversy 2,
      Tone := tone, Reasons := reasons }

/-- Models `time.Time.Format(time.RFC3339)` as an abstract injective rendering of the
instant (standard-library code, not of this repository; no claim inspects the text). -/
def rfc3339String (t : Int) : String := toString t

/-- The fields of a reply item common to both branches of the loop of
`buildReplyDebt`. -/
def baseItem (q : QuestionStatus) : ReplyItem :=
  { Questioner := senderDisplay q.Message
    Question := trimQuestionText q.Message
    AskedAt := match q.AskedAt with | none => "" | some t => rfc3339String t
    Mentions := q.Mentions
    AgeMinutes := 0, ResponseMinutes := 0, Responders := [] }

/-- The resolved-branch item of `buildReplyDebt`. -/
def mkResolvedItem (q : QuestionStatus) : ReplyItem :=
  { baseItem q with
    ResponseMinutes := roundTo q.ResponseMinutes 1
    Responders :=
      if !q.Responders.isEmpty then sortStrings (q.Responders.map (fun p => p.2)) else [] }

/-- The outstanding-branch item of `buildReplyDebt`. -/
def mkOutstandingItem (lastTime : Option Int) (q : QuestionStatus) : ReplyItem :=
  { baseItem q with
    AgeMinutes :=
      match lastTime, q.AskedAt with
      | some l, some a =>
        roundTo (let age : ℚ := ((l - a : Int) : ℚ) / 60; if age < 0 then 0 else age) 1
      | _, _ => 0 }

/-- The accumulators of the loop of `buildReplyDebt`. -/
structure RDAcc where
  out : List ReplyItem
  res : List ReplyItem
  totalResponse : ℚ
  responseCount : ℚ
  hourCounts : List (Int × Nat)
deriving Repr, DecidableEq

/-- One iteration of the loop of `buildReplyDebt` (lines 384–424). -/
def rdStep (lastTime : Option Int) (acc : RDAcc) (q : QuestionStatus) : RDAcc :=
  if q.Resolved then
    { acc with
      res := acc.res ++ [mkResolvedItem q]
      totalResponse :=
        if 0 < q.ResponseMinutes then acc.totalResponse + q.ResponseMinutes
        else acc.totalResponse
      responseCount :=
        if 0 < q.ResponseMinutes then acc.responseCount + 1 else acc.responseCount
      hourCounts :=
        if 0 ≤ q.ResponseHour then bumpKey acc.hourCounts q.ResponseHour else acc.hourCounts }
  else { acc with out := acc.out ++ [mkOutstandingItem lastTime q] }

/-- Embeds `buildReplyDebt` of summary.go. -/
def buildReplyDebt (questions : List QuestionStatus) (lastTime : Option Int) : ReplyDebt :=
  if questions.isEmpty then
    { Outstanding := [], Resolved := [], AvgResponseMinutes := 0, BestResponseHours := [] }
  else
    let acc := questions.foldl (rdStep lastTime) ⟨[], [], 0, 0, []⟩
    { Outstanding := acc.out
      Resolved := acc.res
      AvgResponseMinutes :=
        if 0 < acc.responseCount then roundTo (acc.totalResponse / acc.responseCount) 1 else 0
      BestResponseHours := bestHours acc.hourCounts 3 }

/-- The representative pick of the topic loop: the first longest (in runes) matching
text, via a strict-improvement scan. -/
def pickRep (matched : List String) : String :=
  (matched.foldl
    (fun (p : String × Nat) t => if p.2 < runeLen t then (t, runeLen t) else p)
    ("", 0)).1

/-- The topic-building loop of `BuildSummary` (lines 239–284): walk the ranked tokens,
keep a token as a topic when at least 3 texts contain it and it has no substring
overlap with an already used topic name, stop at 5 topics. -/
def topicsLoop (texts : List String) : List String → List Topic → List String → List Topic
  | [], topics, _ => topics
  | tk :: rest, topics, used =>
    if 5 ≤ topics.length then topics
    else if (texts.filter (fun t => goContains t tk)).length < 3 then
      topicsLoop texts rest topics used
    else if used.any (fun k => goContains k tk || goContains tk k) then
      topicsLoop texts rest topics used
    else
      topicsLoop texts rest
        (topics ++ [{ Name := tk, Keywords := [tk],
                      Count := (texts.filter (fun t => goContains t tk)).length,
                      Representative := pickRep (texts.filter (fun t => goContains t tk)) }])
        (used ++ [tk])

/-- Embeds `BuildSummary` of summary.go. -/
def BuildSummary (msgs : List Message) : Summary :=
  let st := passState msgs
  let keywords := topK st.tokenCount 20
  let topTokens := keywords.map KV.Key
  let pre : Summary :=
    { TotalMessages := msgs.length
      UniqueSenders := st.senderCount.length
      TopSenders := topK st.senderCount 5
      TopLinks := topKKeys st.linkCount 5
      HourlyHistogram := st.hist
      Keywords := keywords
      PeakHour := peakHourOf st.hist
      Highlights := []
      Topics := topicsLoop st.messagesText topTokens [] []
      ImageCount := st.imageCount
      GroupVibes := { Score := 0, Activity := 0, Sentiment := 0, InfoDensity := 0,
                      Controversy := 0, Tone := "", Reasons := [] }
      ReplyDebt := { Outstanding := [], Resolved := [], AvgResponseMinutes := 0,
                     BestResponseHours := [] } }
  let withHighlights := { pre with Highlights := buildHighlights pre }
  { withHighlights with
    GroupVibes := buildGroupVibes withHighlights st.analytics
    ReplyDebt := buildReplyDebt st.questions st.lastTime }

end Summarize

namespace Summarize

/-! ### Concrete fixtures used by counterexamples and witnesses -/

/-- A message whose text repeats the same URL twice. -/
def dupUrlMsg : Message := { blankMessage with Content := "https://a.com/x https://a.com/x" }

/-- A tracked question by Alice carrying no derivable time. -/
def c1q : Message :=
  { blankMessage with
    SenderName := "Alice"
    MsgType := 1
    IsQuestion := true
    Content := "why is the build failing??" }

/-- A reply by Bob, also with no derivable time, whose reply-reference names Alice and
quotes her question. -/
def c1r : Message :=
  { blankMessage with
    SenderName := "Bob"
    MsgType := 1
    Content := "check the CI config"
    Reference := some { SenderName := "Alice", Content := "why is the build failing??" } }

/-- The ledger entry the pass opens for `c1q`. -/
def c1entry : QuestionStatus := mkEntry 0 c1q (messageTime c1q)

/-- The same two messages with derivable times 5 minutes apart. -/
def wqMsg : Message := { c1q with Timestamp := 1000 }
def wrMsg : Message := { c1r with Timestamp := 1300 }

/-- A tracked question whose sender fields are all blank. -/
def bqMsg : Message :=
  { blankMessage with
    IsQuestion := true
    MsgType := 1
    Content := "anyone??" }

end Summarize

namespace Summarize

/-! ### C2, C7, C8 -/

/-- C2: the claim says two invocations of the summarizer on the identical input produce
identical Summary records in every field, including the order of `topLinks`.  The code
builds `topLinks` with `topKKeys`, which enumerates a Go map (whose iteration order is
randomized per run) and sorts only by count with no tie-break, so links with equal
counts come out in enumeration order.  This theorem exhibits two enumeration orders of
the same map contents — two links with count 1 each — on which `topKKeys` returns
different lists; `BuildSummary`'s `topLinks` therefore depends on map iteration order,
contradicting the specified determinism (the sibling `topK` does break ties by key,
which shows the missing tie-break in `topKKeys` is a slip in the code). -/
theorem c2_topKKeys_order_dependent :
    [("https://a.com", 1), ("https://b.com", 1)].Perm
      [("https://b.com", 1), ("https://a.com", 1)] ∧
    topKKeys [("https://a.com", 1), ("https://b.com", 1)] 5 ≠
      topKKeys [("https://b.com", 1), ("https://a.com", 1)] 5 :=
  ⟨List.Perm.swap _ _ _, by decide⟩

/-- C7 counterexample: the claim says a message containing the same URL twice
increments that URL's entry in the link-frequency map twice; `extractURLs` dedups
within the message, so after processing `dupUrlMsg` the map holds the URL with
count 1, not 2. -/
theorem c7_counterexample :
    (passState [dupUrlMsg]).linkCount ≠ [("https://a.com/x", 2)] ∧
    (passState [dupUrlMsg]).linkCount = [("https://a.com/x", 1)] := by
  refine ⟨?ne, ?eq⟩
  · decide
  · decide

/-- C7 (amended): a message whose text contains the same URL twice contributes the URL
to the link-frequency map once (URLs are deduplicated within a message), and `topLinks`
lists the URL once. -/
theorem c7_dup_url_once :
    (passState [dupUrlMsg]).linkCount = [("https://a.com/x", 1)] ∧
    (BuildSummary [dupUrlMsg]).TopLinks = ["https://a.com/x"] := by
  refine ⟨?mapc, ?links⟩
  · decide
  · decide

/-- C8 counterexample: the claim says every container field, highlights included, is
empty on empty input; `buildHighlights` unconditionally emits the header bullet, so
the highlights list of `BuildSummary []` is not empty. -/
theorem c8_counterexample : (BuildSummary []).Highlights ≠ [] := by decide

/-- C8 (amended): on empty input the summarizer returns exactly one Summary with
totalMessages = 0, uniqueSenders = 0, empty topSenders/topLinks/keywords/topics,
an all-zero histogram, peak hour 0, image count 0, and zero-valued GroupVibes and
ReplyDebt; the highlights list is not empty but contains exactly the single header
line (with zero counts). -/
theorem c8_empty_summary :
    BuildSummary [] =
      { TotalMessages := 0
        UniqueSenders := 0
        TopSenders := []
        TopLinks := []
        HourlyHistogram := List.replicate 24 0
        Keywords := []
        PeakHour := 0
        Highlights := [hlHeader 0 0 0]
        Topics := []
        ImageCount := 0
        GroupVibes := { Score := 0, Activity := 0, Sentiment := 0, InfoDensity := 0,
                        Controversy := 0, Tone := "", Reasons := [] }
        ReplyDebt := { Outstanding := [], Resolved := [], AvgResponseMinutes := 0,
                       BestResponseHours := [] } } := by
  rfl

end Summarize

namespace Summarize

/-! ### C3: histogram bucket sum -/

theorem bumpAt_length (l : List Nat) (i : Nat) : (bumpAt l i).length = l.length := by
  induction l generalizing i with
  | nil => rfl
  | cons x t ih =>
    cases i with
    | zero => rfl
    | succ j => simpa [bumpAt] using ih j

theorem bumpAt_sum (l : List Nat) (i : Nat) (h : i < l.length) :
    (bumpAt l i).sum = l.sum + 1 := by
  induction l generalizing i with
  | nil => simp at h
  | cons x t ih =>
    cases i with
    | zero => simp [bumpAt]; omega
    | succ j =>
      have hj : j < t.length := by simpa using h
      simp [bumpAt, ih j hj]; omega

theorem hourIdx_lt_24 (t : Int) : hourIdx t < 24 := by
  unfold hourIdx hourOf
  omega

theorem histUpdate_length (hist : List Nat) (m : Message) :
    (histUpdate hist m).length = hist.length := by
  show (if 0 < histTs m then bumpAt hist (hourIdx (normMs (histTs m))) else hist).length =
    hist.length
  split
  · exact bumpAt_length hist _
  · rfl

theorem histUpdate_sum (hist : List Nat) (m : Message) (h : hist.length = 24) :
    (histUpdate hist m).sum = hist.sum + (if 0 < histTs m then 1 else 0) := by
  show (if 0 < histTs m then bumpAt hist (hourIdx (normMs (histTs m))) else hist).sum =
    hist.sum + (if 0 < histTs m then 1 else 0)
  split
  · rename_i hts
    rw [bumpAt_sum hist _ (by rw [h]; exact hourIdx_lt_24 _)]
  · rename_i hts
    simp [hts]

theorem stepMessage_hist (st : PassState) (idx : Nat) (m : Message) :
    (stepMessage st idx m).hist = histUpdate st.hist m := rfl

theorem passFrom_hist (msgs : List Message) :
    ∀ (st : PassState) (idx : Nat), st.hist.length = 24 →
      (passFrom st idx msgs).hist.length = 24 ∧
      (passFrom st idx msgs).hist.sum =
        st.hist.sum + (msgs.filter (fun m => decide (0 < histTs m))).length := by
  induction msgs with
  | nil => intro st idx h; exact ⟨h, by simp [passFrom]⟩
  | cons m rest ih =>
    intro st idx h
    have hlen : (stepMessage st idx m).hist.length = 24 := by
      rw [stepMessage_hist, histUpdate_length]; exact h
    have hrec := ih (stepMessage st idx m) (idx + 1) hlen
    refine ⟨hrec.1, ?_⟩
    have hsum : (stepMessage st idx m).hist.sum =
        st.hist.sum + (if 0 < histTs m then 1 else 0) := by
      rw [stepMessage_hist]; exact histUpdate_sum st.hist m h
    calc (passFrom st idx (m :: rest)).hist.sum
        = (stepMessage st idx m).hist.sum +
            (rest.filter (fun x => decide (0 < histTs x))).length := hrec.2
      _ = st.hist.sum + (if 0 < histTs m then 1 else 0) +
            (rest.filter (fun x => decide (0 < histTs x))).length := by rw [hsum]
      _ = st.hist.sum + ((m :: rest).filter (fun x => decide (0 < histTs x))).length := by
            by_cases hm : 0 < histTs m
            · simp [List.filter_cons, hm]; omega
            · simp [List.filter_cons, hm]

/-- C3: the sum of the 24 hourly histogram buckets equals the number of messages with
a derivable timestamp — derivable in the sense of the histogram code itself (lines
110–121): the primary `Timestamp` field if non-zero, else `CreateTime`, must be
positive — and is therefore at most the total message count, with equality whenever
every message has such a timestamp. -/
theorem c3_histogram_sum (msgs : List Message) :
    (BuildSummary msgs).HourlyHistogram.sum =
        (msgs.filter (fun m => decide (0 < histTs m))).length ∧
    (BuildSummary msgs).HourlyHistogram.sum ≤ msgs.length ∧
    ((∀ m ∈ msgs, 0 < histTs m) →
        (BuildSummary msgs).HourlyHistogram.sum = msgs.length) := by
  have h0 : initState.hist.length = 24 := by decide
  have hb := passFrom_hist msgs initState 0 h0
  have hH : (BuildSummary msgs).HourlyHistogram = (passState msgs).hist := rfl
  have hinit : initState.hist.sum = 0 := by decide
  have hsum : (BuildSummary msgs).HourlyHistogram.sum =
      (msgs.filter (fun m => decide (0 < histTs m))).length := by
    rw [hH]
    unfold passState
    rw [hb.2, hinit]
    omega
  refine ⟨hsum, ?_, ?_⟩
  · rw [hsum]; exact List.length_filter_le _ _
  · intro hall
    rw [hsum]
    have : msgs.filter (fun m => decide (0 < histTs m)) = msgs :=
      List.filter_eq_self.mpr (fun m hm => by simpa using hall m hm)
    rw [this]

/-- C3 witness: a concrete one-message input with a derivable timestamp on which the
bucket sum equals the total count. -/
theorem c3_histogram_sum_witness :
    (BuildSummary [wqMsg]).HourlyHistogram.sum = [wqMsg].length :=
  (c3_histogram_sum [wqMsg]).2.2 (by decide)

end Summarize

namespace Summarize

/-! ### C4: GroupVibes bounds and composite score -/

theorem clamp01_bounds (v : ℚ) : 0 ≤ clamp01 v ∧ clamp01 v ≤ 1 := by
  unfold clamp01
  split_ifs <;> constructor <;> linarith

theorem goRound_nonneg (x : ℚ) (h : 0 ≤ x) : 0 ≤ goRound x := by
  unfold goRound
  rw [if_neg (not_lt.mpr h)]
  exact Int.floor_nonneg.mpr (by linarith)

theorem goRound_le (x : ℚ) (n : ℤ) (h0 : 0 ≤ x) (h : x ≤ (n : ℚ)) : goRound x ≤ n := by
  unfold goRound
  rw [if_neg (not_lt.mpr h0)]
  have hlt : ⌊x + 1 / 2⌋ < n + 1 := by
    rw [Int.floor_lt]
    push_cast
    linarith
  omega

theorem roundTo_bounds01 (v : ℚ) (d : Nat) (h0 : 0 ≤ v) (h1 : v ≤ 1) :
    0 ≤ roundTo v d ∧ roundTo v d ≤ 1 := by
  show 0 ≤ ((goRound (v * 10 ^ d) : ℚ) / 10 ^ d) ∧ ((goRound (v * 10 ^ d) : ℚ) / 10 ^ d) ≤ 1
  have hf : (0 : ℚ) < 10 ^ d := by positivity
  have hmul0 : 0 ≤ v * 10 ^ d := by positivity
  have hr0 : 0 ≤ goRound (v * 10 ^ d) := goRound_nonneg _ hmul0
  have hub : goRound (v * 10 ^ d) ≤ ((10 : ℤ) ^ d) := by
    apply goRound_le _ _ hmul0
    push_cast
    nlinarith
  constructor
  · apply div_nonneg _ (le_of_lt hf)
    exact_mod_cast hr0
  · rw [div_le_one hf]
    calc (goRound (v * 10 ^ d) : ℚ) ≤ (((10 : ℤ) ^ d : ℤ) : ℚ) := by exact_mod_cast hub
      _ = 10 ^ d := by push_cast; ring

/-- The composite score exactly as the claim's formula states it:
`round(100 × (0.35·activity + 0.30·sentiment + 0.20·infoDensity + 0.15·balanced))`
with `balanced = clamp(1 − |0.35 − controversy| / 0.35)`. -/
def specVibeScore (activity sentiment infoDensity controversy : ℚ) : ℤ :=
  goRound (100 * (0.35 * activity + 0.30 * sentiment + 0.20 * infoDensity +
    0.15 * clamp01 (1 - |0.35 - controversy| / 0.35)))

theorem buildGroupVibes_spec (s : Summary) (a : VibeTracker) (h : s.TotalMessages ≠ 0) :
    (0 ≤ (buildGroupVibes s a).Activity ∧ (buildGroupVibes s a).Activity ≤ 1) ∧
    (0 ≤ (buildGroupVibes s a).Sentiment ∧ (buildGroupVibes s a).Sentiment ≤ 1) ∧
    (0 ≤ (buildGroupVibes s a).InfoDensity ∧ (buildGroupVibes s a).InfoDensity ≤ 1) ∧
    (0 ≤ (buildGroupVibes s a).Controversy ∧ (buildGroupVibes s a).Controversy ≤ 1) ∧
    (buildGroupVibes s a).Score =
      specVibeScore (vibeActivity s) (vibeSentiment s a) (vibeInfoDensity s a)
        (vibeControversy s a) ∧
    0 ≤ (buildGroupVibes s a).Score ∧ (buildGroupVibes s a).Score ≤ 100 := by
  have hact := clamp01_bounds ((s.TotalMessages : ℚ) / 80 + (s.UniqueSenders : ℚ) / 25)
  have hsen := clamp01_bounds (0.5 + (a.sentimentPos - a.sentimentNeg) /
    ((s.TotalMessages : ℚ) * 1.5))
  have hinf := clamp01_bounds ((a.infoDense : ℚ) / (s.TotalMessages : ℚ))
  have hcon := clamp01_bounds
    (((a.questionMsg + a.mentionMsg + a.exclaimMsg : Nat) : ℚ) / ((s.TotalMessages : ℚ) * 1.0))
  have hbal := clamp01_bounds (1 - |0.35 - vibeControversy s a| / 0.35)
  have hA : vibeActivity s = clamp01 ((s.TotalMessages : ℚ) / 80 + (s.UniqueSenders : ℚ) / 25) :=
    rfl
  have hS : vibeSentiment s a = clamp01 (0.5 + (a.sentimentPos - a.sentimentNeg) /
      ((s.TotalMessages : ℚ) * 1.5)) := rfl
  have hI : vibeInfoDensity s a = clamp01 ((a.infoDense : ℚ) / (s.TotalMessages : ℚ)) := rfl
  have hC : vibeControversy s a = clamp01
      (((a.questionMsg + a.mentionMsg + a.exclaimMsg : Nat) : ℚ) /
        ((s.TotalMessages : ℚ) * 1.0)) := rfl
  have hB : vibeBalanced (vibeControversy s a) =
      clamp01 (1 - |0.35 - vibeControversy s a| / 0.35) := rfl
  have harg0 : 0 ≤ (vibeActivity s * 0.35 + vibeSentiment s a * 0.3 +
      vibeInfoDensity s a * 0.2 + vibeBalanced (vibeControversy s a) * 0.15) * 100 := by
    rw [hA, hS, hI, hB]
    linarith [hact.1, hsen.1, hinf.1, hbal.1]
  have harg1 : (vibeActivity s * 0.35 + vibeSentiment s a * 0.3 +
      vibeInfoDensity s a * 0.2 + vibeBalanced (vibeControversy s a) * 0.15) * 100 ≤ 100 := by
    rw [hA, hS, hI, hB]
    linarith [hact.2, hsen.2, hinf.2, hbal.2]
  have hScore : (buildGroupVibes s a).Score =
      goRound ((vibeActivity s * 0.35 + vibeSentiment s a * 0.3 +
        vibeInfoDensity s a * 0.2 + vibeBalanced (vibeControversy s a) * 0.15) * 100) := by
    unfold buildGroupVibes
    rw [if_neg h]
  have hActP : (buildGroupVibes s a).Activity = roundTo (vibeActivity s) 2 := by
    unfold buildGroupVibes
    rw [if_neg h]
  have hSenP : (buildGroupVibes s a).Sentiment = roundTo (vibeSentiment s a) 2 := by
    unfold buildGroupVibes
    rw [if_neg h]
  have hInfP : (buildGroupVibes s a).InfoDensity = roundTo (vibeInfoDensity s a) 2 := by
    unfold buildGroupVibes
    rw [if_neg h]
  have hConP : (buildGroupVibes s a).Controversy = roundTo (vibeControversy s a) 2 := by
    unfold buildGroupVibes
    rw [if_neg h]
  refine ⟨?_, ?_, ?_, ?_, ?_, ?_, ?_⟩
  · rw [hActP]; exact roundTo_bounds01 _ 2 (hA ▸ hact.1) (hA ▸ hact.2)
  · rw [hSenP]; exact roundTo_bounds01 _ 2 (hS ▸ hsen.1) (hS ▸ hsen.2)
  · rw [hInfP]; exact roundTo_bounds01 _ 2 (hI ▸ hinf.1) (hI ▸ hinf.2)
  · rw [hConP]; exact roundTo_bounds01 _ 2 (hC ▸ hcon.1) (hC ▸ hcon.2)
  · rw [hScore]
    unfold specVibeScore vibeBalanced
    congr 1
    ring
  · rw [hScore]; exact goRound_nonneg _ harg0
  · rw [hScore]; exact goRound_le _ 100 harg0 (by exact_mod_cast harg1)

/-- C4: for every non-empty input, the four exposed GroupVibes sub-scores lie in
[0, 1], the composite score equals
`round(100 × (0.35·activity + 0.30·sentiment + 0.20·infoDensity + 0.15·balanced))`
computed from the (unrounded) sub-scores with
`balanced = clamp(1 − |0.35 − controversy| / 0.35)`, and the score is an integer in
[0, 100]. -/
theorem c4_group_vibes (msgs : List Message) (h : msgs ≠ []) :
    (0 ≤ (BuildSummary msgs).GroupVibes.Activity ∧ (BuildSummary msgs).GroupVibes.Activity ≤ 1) ∧
    (0 ≤ (BuildSummary msgs).GroupVibes.Sentiment ∧
      (BuildSummary msgs).GroupVibes.Sentiment ≤ 1) ∧
    (0 ≤ (BuildSummary msgs).GroupVibes.InfoDensity ∧
      (BuildSummary msgs).GroupVibes.InfoDensity ≤ 1) ∧
    (0 ≤ (BuildSummary msgs).GroupVibes.Controversy ∧
      (BuildSummary msgs).GroupVibes.Controversy ≤ 1) ∧
    (BuildSummary msgs).GroupVibes.Score =
      specVibeScore (vibeActivity (BuildSummary msgs))
        (vibeSentiment (BuildSummary msgs) (passState msgs).analytics)
        (vibeInfoDensity (BuildSummary msgs) (passState msgs).analytics)
        (vibeControversy (BuildSummary msgs) (passState msgs).analytics) ∧
    0 ≤ (BuildSummary msgs).GroupVibes.Score ∧ (BuildSummary msgs).GroupVibes.Score ≤ 100 := by
  have hne : (BuildSummary msgs).TotalMessages ≠ 0 := by
    show msgs.length ≠ 0
    simpa [List.length_eq_zero] using h
  exact buildGroupVibes_spec (BuildSummary msgs) (passState msgs).analytics hne

/-- C4 witness: the score facts at a concrete one-message input. -/
theorem c4_group_vibes_witness :
    0 ≤ (BuildSummary [blankMessage]).GroupVibes.Score ∧
    (BuildSummary [blankMessage]).GroupVibes.Score ≤ 100 ∧
    (BuildSummary [blankMessage]).GroupVibes.Score =
      specVibeScore (vibeActivity (BuildSummary [blankMessage]))
        (vibeSentiment (BuildSummary [blankMessage]) (passState [blankMessage]).analytics)
        (vibeInfoDensity (BuildSummary [blankMessage]) (passState [blankMessage]).analytics)
        (vibeControversy (BuildSummary [blankMessage]) (passState [blankMessage]).analytics) := by
  have h := c4_group_vibes [blankMessage] (List.cons_ne_nil _ _)
  exact ⟨h.2.2.2.2.2.1, h.2.2.2.2.2.2, h.2.2.2.2.1⟩

end Summarize

namespace Summarize

/-! ### C9: sentiment signals -/

theorem lexiconHit_eq_any (text lower : String) (l : List String)
    (hne : ∀ tok ∈ l, tok ≠ "") :
    lexiconHit text lower l =
      l.any (fun tok => goContains text tok || goContains lower tok) := by
  induction l with
  | nil => rfl
  | cons tok rest ih =>
    have htok : tok ≠ "" := hne tok (by simp)
    have hrest : ∀ x ∈ rest, x ≠ "" := fun x hx => hne x (by simp [hx])
    unfold lexiconHit
    rw [if_neg htok]
    cases hgc : (goContains text tok || goContains lower tok) with
    | true => simp [hgc]
    | false => simp [hgc, ih hrest]

theorem emojiFold_spec (emojis : List String) :
    ∀ p n : ℚ,
      emojis.foldl (fun pn e0 =>
        let e := goTrimSpace e0
        if e = "" then pn
        else
          ((if positiveEmojiSet.contains e then pn.1 + 0.5 else pn.1),
           (if negativeEmojiSet.contains e then pn.2 + 0.5 else pn.2))) (p, n) =
      (p + 0.5 * ((emojis.filter (fun e => positiveEmojiSet.contains (goTrimSpace e))).length : ℚ),
       n + 0.5 * ((emojis.filter (fun e => negativeEmojiSet.contains (goTrimSpace e))).length : ℚ)) := by
  induction emojis with
  | nil => intro p n; simp
  | cons e rest ih =>
    intro p n
    by_cases he : goTrimSpace e = ""
    · have hp : positiveEmojiSet.contains (goTrimSpace e) = false := by rw [he]; decide
      have hn : negativeEmojiSet.contains (goTrimSpace e) = false := by rw [he]; decide
      simp only [List.foldl_cons, List.filter_cons, he, hp, hn]
      simpa [he] using ih p n
    · cases hp : positiveEmojiSet.contains (goTrimSpace e) with
      | true =>
        cases hn : negativeEmojiSet.contains (goTrimSpace e) with
        | true =>
          simp only [List.foldl_cons, List.filter_cons, hp, hn, he, if_neg he, if_pos,
            cond_true]
          rw [ih]
          simp [hp, hn]
          constructor <;> ring
        | false =>
          simp only [List.foldl_cons, List.filter_cons, hp, hn, he, if_neg he]
          rw [ih]
          simp [hp, hn]
          ring
      | false =>
        cases hn : negativeEmojiSet.contains (goTrimSpace e) with
        | true =>
          simp only [List.foldl_cons, List.filter_cons, hp, hn, he, if_neg he]
          rw [ih]
          simp [hp, hn]
          ring
        | false =>
          simp only [List.foldl_cons, List.filter_cons, hp, hn, he, if_neg he]
          rw [ih]
          simp [hp, hn]

/-- C9: per message, the text contributes exactly 1 to the positive accumulator when
at least one positive-lexicon term occurs in the text (tried case-sensitively and
against the lowercased text) and 0 otherwise, independent of how many terms match;
symmetrically for the negative lexicon; and each attached bracket emoji adds a further
+0.5 to the positive and/or negative accumulator when its (whitespace-trimmed) token
is in the respective emoji set. -/
theorem c9_sentiment_signals (text : String) (emojis : List String) :
    sentimentSignals text emojis =
      ((if positiveLexicons.any
            (fun tk => goContains text tk || goContains (toLowerStr text) tk) then 1 else 0) +
         0.5 * ((emojis.filter
            (fun e => positiveEmojiSet.contains (goTrimSpace e))).length : ℚ),
       (if negativeLexicons.any
            (fun tk => goContains text tk || goContains (toLowerStr text) tk) then 1 else 0) +
         0.5 * ((emojis.filter
            (fun e => negativeEmojiSet.contains (goTrimSpace e))).length : ℚ)) := by
  unfold sentimentSignals
  split
  · rename_i hearly
    have htext : text = "" := by
      by_cases ht : text = ""
      · exact ht
      · simp [ht] at hearly
    have hemo : emojis = [] := by
      by_cases hl : emojis = []
      · exact hl
      · simp [htext, hl] at hearly
    subst htext
    subst hemo
    have hpos : positiveLexicons.any
        (fun tk => goContains "" tk || goContains (toLowerStr "") tk) = false := by decide
    have hneg : negativeLexicons.any
        (fun tk => goContains "" tk || goContains (toLowerStr "") tk) = false := by decide
    simp [hpos, hneg]
  · rename_i hearly
    have hpne : ∀ tok ∈ positiveLexicons, tok ≠ "" := by decide
    have hnne : ∀ tok ∈ negativeLexicons, tok ≠ "" := by decide
    simp only [lexiconHit_eq_any text (toLowerStr text) positiveLexicons hpne,
      lexiconHit_eq_any text (toLowerStr text) negativeLexicons hnne]
    exact emojiFold_spec emojis _ _

end Summarize

namespace Summarize

/-! ### C5: topics -/

/-- A message used by the C5 witness. -/
def topicDemoMsg : Message :=
  { blankMessage with SenderName := "A", Content := "golang rocks golang" }


theorem topicsLoop_spec (texts : List String) (toks : List String) :
    ∀ (topics : List Topic) (used : List String),
      used = topics.map Topic.Name →
      topics.length ≤ 5 →
      (∀ t ∈ topics,
        t.Count = (texts.filter (fun x => goContains x t.Name)).length ∧ 3 ≤ t.Count) →
      topics.Pairwise
        (fun a b => goContains a.Name b.Name = false ∧ goContains b.Name a.Name = false) →
      ((topicsLoop texts toks topics used).length ≤ 5 ∧
       (∀ t ∈ topicsLoop texts toks topics used,
          t.Count = (texts.filter (fun x => goContains x t.Name)).length ∧ 3 ≤ t.Count) ∧
       (topicsLoop texts toks topics used).Pairwise
         (fun a b => goContains a.Name b.Name = false ∧ goContains b.Name a.Name = false)) := by
  induction toks with
  | nil =>
    intro topics used hused h5 hok hpw
    exact ⟨h5, hok, hpw⟩
  | cons tk rest ih =>
    intro topics used hused h5 hok hpw
    simp only [topicsLoop]
    split_ifs with hfull hweak hover
    · exact ⟨h5, hok, hpw⟩
    · exact ih topics used hused h5 hok hpw
    · exact ih topics used hused h5 hok hpw
    · apply ih
      · rw [hused]
        simp
      · have : topics.length < 5 := by omega
        simp
        omega
      · intro t ht
        rcases List.mem_append.mp ht with hin | hnew
        · exact hok t hin
        · have heq : t = ⟨tk, [tk], (texts.filter (fun x => goContains x tk)).length,
              pickRep (texts.filter (fun x => goContains x tk))⟩ := by
            simpa using hnew
          subst heq
          refine ⟨rfl, ?_⟩
          show 3 ≤ (texts.filter (fun x => goContains x tk)).length
          omega
      · rw [List.pairwise_append]
        refine ⟨hpw, by simp, ?_⟩
        intro a ha b hb
        have hb' : b = ⟨tk, [tk], (texts.filter (fun x => goContains x tk)).length,
            pickRep (texts.filter (fun x => goContains x tk))⟩ := by
          simpa using hb
        subst hb'
        have hname : a.Name ∈ used := by
          rw [hused]
          exact List.mem_map_of_mem Topic.Name ha
        have hfalse : (goContains a.Name tk || goContains tk a.Name) = false := by
          by_contra hcontra
          apply hover
          exact List.any_of_mem hname (by simpa using Bool.ne_false_iff.mp hcontra)
        constructor
        · exact (Bool.or_eq_false_iff.mp hfalse).1
        · exact (Bool.or_eq_false_iff.mp hfalse).2

/-- C5: for every input there are at most 5 topics, every retained topic's count is
the number of collected per-message texts containing its name as a substring and is
at least 3, and no two retained topic names are substrings of one another. -/
theorem c5_topics (msgs : List Message) :
    (BuildSummary msgs).Topics.length ≤ 5 ∧
    (∀ t ∈ (BuildSummary msgs).Topics,
        t.Count =
          ((passState msgs).messagesText.filter (fun x => goContains x t.Name)).length ∧
        3 ≤ t.Count) ∧
    (BuildSummary msgs).Topics.Pairwise
      (fun a b => goContains a.Name b.Name = false ∧ goContains b.Name a.Name = false) := by
  have h : (BuildSummary msgs).Topics =
      topicsLoop (passState msgs).messagesText
        ((topK (passState msgs).tokenCount 20).map KV.Key) [] [] := rfl
  rw [h]
  exact topicsLoop_spec (passState msgs).messagesText
    ((topK (passState msgs).tokenCount 20).map KV.Key) [] [] rfl (by simp) (by simp)
    List.Pairwise.nil

/-- C5 witness: the topic facts at a concrete input of three identical messages (the
token "golang" seeds a topic with count 3). -/
theorem c5_topics_witness :
    (BuildSummary [topicDemoMsg, topicDemoMsg, topicDemoMsg]).Topics.length ≤ 5 ∧
    ∀ t ∈ (BuildSummary [topicDemoMsg, topicDemoMsg, topicDemoMsg]).Topics, 3 ≤ t.Count := by
  have h := c5_topics [topicDemoMsg, topicDemoMsg, topicDemoMsg]
  exact ⟨h.1, fun t ht => (h.2.1 t ht).2⟩

end Summarize

namespace Summarize

/-! ### C6: reply-debt partition and resolution stability -/

theorem rdFold_spec (lastTime : Option Int) (qs : List QuestionStatus) :
    ∀ acc : RDAcc,
      (qs.foldl (rdStep lastTime) acc).out =
        acc.out ++ (qs.filter (fun q => !q.Resolved)).map (mkOutstandingItem lastTime) ∧
      (qs.foldl (rdStep lastTime) acc).res =
        acc.res ++ (qs.filter (fun q => q.Resolved)).map mkResolvedItem := by
  induction qs with
  | nil => intro acc; simp
  | cons q rest ih =>
    intro acc
    cases hq : q.Resolved with
    | true =>
      have hstep : (rdStep lastTime acc q).out = acc.out ∧
          (rdStep lastTime acc q).res = acc.res ++ [mkResolvedItem q] := by
        unfold rdStep
        rw [if_pos hq]
        exact ⟨rfl, rfl⟩
      have h := ih (rdStep lastTime acc q)
      simp only [List.foldl_cons, List.filter_cons, hq]
      refine ⟨?_, ?_⟩
      · rw [h.1, hstep.1]
        simp
      · rw [h.2, hstep.2]
        simp
    | false =>
      have hstep : (rdStep lastTime acc q).out = acc.out ++ [mkOutstandingItem lastTime q] ∧
          (rdStep lastTime acc q).res = acc.res := by
        unfold rdStep
        rw [if_neg (by simp [hq])]
        exact ⟨rfl, rfl⟩
      have h := ih (rdStep lastTime acc q)
      simp only [List.foldl_cons, List.filter_cons, hq]
      refine ⟨?_, ?_⟩
      · rw [h.1, hstep.1]
        simp
      · rw [h.2, hstep.2]
        simp

theorem buildReplyDebt_outstanding (qs : List QuestionStatus) (lastTime : Option Int) :
    (buildReplyDebt qs lastTime).Outstanding =
      (qs.filter (fun q => !q.Resolved)).map (mkOutstandingItem lastTime) := by
  by_cases hq : qs = []
  · subst hq; rfl
  · have hne : qs.isEmpty = false := by simpa [List.isEmpty_iff] using hq
    have h := (rdFold_spec lastTime qs ⟨[], [], 0, 0, []⟩).1
    simp only [buildReplyDebt, hne, Bool.false_eq_true, if_false]
    simpa using h

theorem buildReplyDebt_resolved (qs : List QuestionStatus) (lastTime : Option Int) :
    (buildReplyDebt qs lastTime).Resolved =
      (qs.filter (fun q => q.Resolved)).map mkResolvedItem := by
  by_cases hq : qs = []
  · subst hq; rfl
  · have hne : qs.isEmpty = false := by simpa [List.isEmpty_iff] using hq
    have h := (rdFold_spec lastTime qs ⟨[], [], 0, 0, []⟩).2
    simp only [buildReplyDebt, hne, Bool.false_eq_true, if_false]
    simpa using h

theorem filter_length_split (qs : List QuestionStatus) :
    (qs.filter (fun q => !q.Resolved)).length + (qs.filter (fun q => q.Resolved)).length =
      qs.length := by
  induction qs with
  | nil => rfl
  | cons q rest ih =>
    cases hq : q.Resolved <;> simp [List.filter_cons, hq] <;> omega

theorem resolveOne_resolved (idx : Nat) (m : Message) (t : Option Int) (text : String)
    (q : QuestionStatus) (h : q.Resolved = true) : resolveOne idx m t text q = q := by
  unfold resolveOne
  rw [if_pos h]

theorem stepMessage_questions (st : PassState) (idx : Nat) (m : Message) :
    (stepMessage st idx m).questions =
      st.questions.map (resolveOne idx m (messageTime m) (resolveText m)) ++
        (if shouldTrackQuestion m (resolveText m) then
          [mkEntry idx m (messageTime m)] else []) := rfl

theorem stepMessage_frozen (st : PassState) (idx : Nat) (m : Message) (k : Nat)
    (q : QuestionStatus) (hk : st.questions.get? k = some q) (hr : q.Resolved = true) :
    (stepMessage st idx m).questions.get? k = some q := by
  rw [stepMessage_questions]
  have hlt : k < st.questions.length := by
    by_contra hge
    rw [List.get?_eq_none.mpr (by omega)] at hk
    exact Option.noConfusion hk
  rw [List.get?_append (by simpa using hlt), List.get?_map, hk]
  simp [resolveOne_resolved _ _ _ _ _ hr]

theorem passFrom_frozen (msgs : List Message) :
    ∀ (st : PassState) (idx k : Nat) (q : QuestionStatus),
      st.questions.get? k = some q → q.Resolved = true →
      (passFrom st idx msgs).questions.get? k = some q := by
  induction msgs with
  | nil => intro st idx k q hk _; exact hk
  | cons m rest ih =>
    intro st idx k q hk hr
    exact ih _ _ _ _ (stepMessage_frozen st idx m k q hk hr) hr

/-- C6: every question-ledger entry created during the pass appears in exactly one of
ReplyDebt.outstanding or ReplyDebt.resolved — outstanding is exactly the image of the
unresolved entries and resolved of the resolved ones, so the lengths add up to the
ledger's length — and once an entry is marked resolved it is never re-opened and none
of its fields (latency, response hour, responders) is ever changed by a later message:
the entry survives every later step of the pass unchanged. -/
theorem c6_reply_debt (msgs : List Message) :
    (BuildSummary msgs).ReplyDebt.Outstanding =
      ((passState msgs).questions.filter (fun q => !q.Resolved)).map
        (mkOutstandingItem (passState msgs).lastTime) ∧
    (BuildSummary msgs).ReplyDebt.Resolved =
      ((passState msgs).questions.filter (fun q => q.Resolved)).map mkResolvedItem ∧
    (BuildSummary msgs).ReplyDebt.Outstanding.length +
        (BuildSummary msgs).ReplyDebt.Resolved.length =
      (passState msgs).questions.length ∧
    (∀ (st : PassState) (idx k : Nat) (q : QuestionStatus) (rest : List Message),
      st.questions.get? k = some q → q.Resolved = true →
      (passFrom st idx rest).questions.get? k = some q) := by
  have hO : (BuildSummary msgs).ReplyDebt.Outstanding =
      ((passState msgs).questions.filter (fun q => !q.Resolved)).map
        (mkOutstandingItem (passState msgs).lastTime) :=
    buildReplyDebt_outstanding _ _
  have hR : (BuildSummary msgs).ReplyDebt.Resolved =
      ((passState msgs).questions.filter (fun q => q.Resolved)).map mkResolvedItem :=
    buildReplyDebt_resolved _ _
  refine ⟨hO, hR, ?_, fun st idx k q rest hk hr => passFrom_frozen rest st idx k q hk hr⟩
  rw [hO, hR]
  simp only [List.length_map]
  exact filter_length_split _

/-- A directly constructed resolved ledger entry and a state holding it, used by the
C6 witness. -/
def frozenEntry : QuestionStatus := ⟨0, blankMessage, none, [], "x", true, 0, 0, []⟩

def frozenState : PassState := { initState with questions := [frozenEntry] }

/-- C6 witness: the partition-length equation at a concrete resolved-question input,
and the stability of a resolved entry across a further pass step. -/
theorem c6_reply_debt_witness :
    (BuildSummary [wqMsg, wrMsg]).ReplyDebt.Outstanding.length +
      (BuildSummary [wqMsg, wrMsg]).ReplyDebt.Resolved.length =
      (passState [wqMsg, wrMsg]).questions.length ∧
    (passFrom frozenState 7 [c1r]).questions.get? 0 = some frozenEntry := by
  have h := c6_reply_debt [wqMsg, wrMsg]
  exact ⟨h.2.2.1, h.2.2.2 frozenState 7 0 frozenEntry [c1r] rfl rfl⟩

end Summarize

namespace Summarize

/-! ### C10: blank-sender questions -/

theorem matches_blank (m : Message) (q : QuestionStatus) (text : String)
    (h1 : q.NormalizedQuestioner = "") (h2 : senderDisplay q.Message = "") :
    matchesQuestionResponse m q text = false := by
  unfold matchesQuestionResponse
  rw [h1, h2]
  simp [normalizeName]

theorem resolveOne_blank (idx : Nat) (m : Message) (t : Option Int) (text : String)
    (q : QuestionStatus) (h1 : q.NormalizedQuestioner = "")
    (h2 : senderDisplay q.Message = "") : resolveOne idx m t text q = q := by
  unfold resolveOne
  rw [matches_blank m q text h1 h2]
  split_ifs <;> first | rfl | simp_all

theorem resolveOne_keeps_identity (idx : Nat) (m : Message) (t : Option Int)
    (text : String) (q : QuestionStatus) :
    (resolveOne idx m t text q).Message = q.Message ∧
    (resolveOne idx m t text q).NormalizedQuestioner = q.NormalizedQuestioner := by
  unfold resolveOne
  split_ifs <;> exact ⟨rfl, rfl⟩

/-- Pass invariant for C10: any ledger entry whose question message resolves to a
blank display sender has an empty normalized questioner and is unresolved. -/
def blankInv (qs : List QuestionStatus) : Prop :=
  ∀ q ∈ qs, senderDisplay q.Message = "" →
    q.NormalizedQuestioner = "" ∧ q.Resolved = false

theorem step_blankInv (st : PassState) (idx : Nat) (m : Message)
    (h : blankInv st.questions) : blankInv (stepMessage st idx m).questions := by
  intro q' hq' hblank
  rw [stepMessage_questions] at hq'
  rcases List.mem_append.mp hq' with hmap | hnew
  · rcases List.mem_map.mp hmap with ⟨q, hq, rfl⟩
    have hmsg := resolveOne_keeps_identity idx m (messageTime m) (resolveText m) q
    rw [hmsg.1] at hblank
    have h12 := h q hq hblank
    rw [resolveOne_blank _ _ _ _ q h12.1 hblank]
    exact h12
  · have hq'' : q' = mkEntry idx m (messageTime m) := by
      by_cases htrack : shouldTrackQuestion m (resolveText m)
      · simpa [htrack] using hnew
      · simp [htrack] at hnew
    subst hq''
    have hm : senderDisplay m = "" := hblank
    constructor
    · show normalizeName (senderDisplay m) = ""
      rw [hm]
      decide
    · rfl

theorem passFrom_blankInv (msgs : List Message) :
    ∀ (st : PassState) (idx : Nat), blankInv st.questions →
      blankInv (passFrom st idx msgs).questions := by
  induction msgs with
  | nil => intro st idx h; exact h
  | cons m rest ih =>
    intro st idx h
    exact ih _ _ (step_blankInv st idx m h)

/-- C10: a message whose question flag, type and text satisfy the tracking conditions
opens a ledger entry even when its resolved sender display name is blank; such an
entry has an empty normalized questioner identity; no message can ever resolve any
entry with a blank questioner (the resolution step leaves it unchanged); and in the
final summary every such entry is unresolved and listed in ReplyDebt.outstanding. -/
theorem c10_blank_questioner (msgs : List Message) :
    (∀ (m : Message) (st : PassState) (idx : Nat),
        m.IsQuestion = true → (m.MsgType = 0 ∨ m.MsgType = 1 ∨ m.MsgType = 49) →
        goTrimSpace (resolveText m) ≠ "" → 2 ≤ runeLen (resolveText m) →
        (stepMessage st idx m).questions =
          st.questions.map (resolveOne idx m (messageTime m) (resolveText m)) ++
            [mkEntry idx m (messageTime m)]) ∧
    (∀ (idx : Nat) (m : Message) (t : Option Int),
        senderDisplay m = "" → (mkEntry idx m t).NormalizedQuestioner = "") ∧
    (∀ (idx : Nat) (m : Message) (t : Option Int) (text : String) (q : QuestionStatus),
        q.NormalizedQuestioner = "" → senderDisplay q.Message = "" →
        resolveOne idx m t text q = q) ∧
    (∀ q ∈ (passState msgs).questions, senderDisplay q.Message = "" →
        q.Resolved = false ∧
        mkOutstandingItem (passState msgs).lastTime q ∈
          (BuildSummary msgs).ReplyDebt.Outstanding) := by
  refine ⟨?_, ?_, ?_, ?_⟩
  · intro m st idx hIsQ hty htrim hlen
    have hty' : (m.MsgType ≠ 0 && m.MsgType ≠ 1 && m.MsgType ≠ 49) = false := by
      rcases hty with h | h | h <;> simp [h]
    have hlt : ¬ runeLen (resolveText m) < 2 := by omega
    have htrack : shouldTrackQuestion m (resolveText m) = true := by
      unfold shouldTrackQuestion
      simp [hIsQ, hty', htrim, hlt]
      tauto
    rw [stepMessage_questions, htrack]
    simp
  · intro idx m t hm
    show normalizeName (senderDisplay m) = ""
    rw [hm]
    decide
  · intro idx m t text q h1 h2
    exact resolveOne_blank idx m t text q h1 h2
  · intro q hq hblank
    have hinv := passFrom_blankInv msgs initState 0 (by intro x hx; cases hx) q hq hblank
    refine ⟨hinv.2, ?_⟩
    have hO : (BuildSummary msgs).ReplyDebt.Outstanding =
        ((passState msgs).questions.filter (fun q => !q.Resolved)).map
          (mkOutstandingItem (passState msgs).lastTime) := buildReplyDebt_outstanding _ _
    rw [hO]
    apply List.mem_map_of_mem
    rw [List.mem_filter]
    exact ⟨hq, by simp [hinv.2]⟩

/-- C10 witness: the blank-sender question `bqMsg` opens an entry with empty
normalized questioner, a later matching-looking message leaves it untouched, and it
ends up outstanding. -/
theorem c10_blank_questioner_witness :
    (stepMessage initState 0 bqMsg).questions = [mkEntry 0 bqMsg (messageTime bqMsg)] ∧
    (mkEntry 0 bqMsg (messageTime bqMsg)).NormalizedQuestioner = "" ∧
    resolveOne 3 c1r none "x" (mkEntry 0 bqMsg none) = mkEntry 0 bqMsg none ∧
    (mkEntry 0 bqMsg (messageTime bqMsg)).Resolved = false ∧
    mkOutstandingItem (passState [bqMsg]).lastTime (mkEntry 0 bqMsg (messageTime bqMsg)) ∈
      (BuildSummary [bqMsg]).ReplyDebt.Outstanding := by
  have h := c10_blank_questioner [bqMsg]
  have h1 := h.1 bqMsg initState 0 (by decide) (by decide) (by decide) (by decide)
  have hmem : mkEntry 0 bqMsg (messageTime bqMsg) ∈ (passState [bqMsg]).questions := by
    decide
  have h4 := h.2.2.2 (mkEntry 0 bqMsg (messageTime bqMsg)) hmem (by decide)
  refine ⟨by simpa using h1, h.2.1 0 bqMsg (messageTime bqMsg) (by decide),
    h.2.2.1 3 c1r none "x" (mkEntry 0 bqMsg none) (by decide) (by decide), h4.1, h4.2⟩

end Summarize

namespace Summarize

/-! ### C1: question-response resolution -/

/-- Models the ordering `t.Before(a)` of the Go time package on the embedded instants,
with the zero time (`none`) strictly before every instant of this data model. -/
def timeBefore (t a : Option Int) : Bool :=
  match t, a with
  | none, none => false
  | none, some _ => true
  | some _, none => false
  | some tv, some av => decide (tv < av)

/-- The claim's phrase "the message's derived time is not earlier than the entry's
asked-at time". -/
def specNotEarlier (t a : Option Int) : Bool := !timeBefore t a

/-- The resolution condition exactly as the claim words it: the message's normalized
sender identity is non-trivially different from the entry's normalized questioner
identity (both non-empty and distinct), and at least one of
(a) the reply-reference's sender name normalizes to the questioner,
(b) the reply-reference's content and the question's content are each non-empty and
one contains the other,
(c) the message's mention list contains the questioner's normalized identity,
(d) the question's mention list contains the message sender's normalized identity. -/
def specC1Match (m : Message) (q : QuestionStatus) : Bool :=
  let nq := q.NormalizedQuestioner
  let nr := normalizeName (senderDisplay m)
  decide (nq ≠ "") && decide (nr ≠ "") && decide (nr ≠ nq) &&
  ((match m.Reference with
    | some ref => decide (normalizeName ref.SenderName = nq)
    | none => false) ||
   (match m.Reference with
    | some ref =>
      decide (goTrimSpace ref.Content ≠ "") && decide (goTrimSpace q.Message.Content ≠ "") &&
        (goContains (goTrimSpace q.Message.Content) (goTrimSpace ref.Content) ||
         goContains (goTrimSpace ref.Content) (goTrimSpace q.Message.Content))
    | none => false) ||
   m.Mentions.any (fun x => decide (normalizeName x = nq)) ||
   q.Mentions.any (fun x => decide (normalizeName x = nr)))

theorem guard_any (l : List String) (p : String → Bool) :
    (!l.isEmpty && l.any p) = l.any p := by
  cases l <;> simp

theorem timeGate_eq (t a : Option Int) :
    timeGate t a = (decide (t ≠ none) && specNotEarlier t a) := by
  cases t with
  | none => simp [timeGate, specNotEarlier, timeBefore]
  | some tv =>
    cases a with
    | none => simp [timeGate, specNotEarlier, timeBefore]
    | some av =>
      show decide (av ≤ tv) = (decide (some tv ≠ none) && !timeBefore (some tv) (some av))
      rw [show (decide ((some tv : Option Int) ≠ none)) = true by simp, Bool.true_and]
      show decide (av ≤ tv) = !(decide (tv < av))
      rw [← decide_not]
      exact decide_eq_decide.mpr not_lt.symm

theorem matches_eq_spec (m : Message) (q : QuestionStatus) (text : String)
    (hq : q.NormalizedQuestioner = normalizeName (senderDisplay q.Message)) :
    matchesQuestionResponse m q text = specC1Match m q := by
  unfold matchesQuestionResponse specC1Match
  rw [← hq, ite_self]
  by_cases h0 : q.NormalizedQuestioner = ""
  · simp [h0]
  · by_cases hr : normalizeName (senderDisplay m) = ""
    · simp [h0, hr]
    · by_cases hrq : normalizeName (senderDisplay m) = q.NormalizedQuestioner
      · simp [h0, hr, hrq]
      · rw [if_neg h0, if_neg (by simp [hr, hrq])]
        simp only [h0, hr, hrq, decide_not, decide_eq_true_eq, decide_False,
          Bool.not_false, Bool.true_and, ne_eq, guard_any]
        cases m.Reference with
        | none => simp [guard_any]
        | some ref =>
          by_cases hsn : normalizeName ref.SenderName = q.NormalizedQuestioner
          · simp [hsn, guard_any]
          · simp [hsn, guard_any, Bool.or_assoc]

/-- C1 (amended): each incoming message is tested against every ledger entry (the
step maps the resolution attempt over the entire ledger; entries without a smaller
origin index are skipped by the `idx ≤ q.Index` guard), and an open entry with
smaller origin index is resolved exactly when the message's derived time is KNOWN
and not earlier than the entry's asked-at time, and the claim's identity and
(a)–(d) match conditions hold.  On resolution, latency in minutes is recorded when
both times are known and the message time is after, the response hour is the message
time's hour — the claim's "−1 when the message time is unknown" branch exists in the
code but is unreachable, because a message with unknown derived time never resolves
an entry — and the responder's display name is inserted into the responder set keyed
by its normalized identity. -/
theorem c1_question_resolution (st : PassState) (idx : Nat) (m : Message)
    (q : QuestionStatus)
    (hq : q.NormalizedQuestioner = normalizeName (senderDisplay q.Message))
    (hopen : q.Resolved = false) (hidx : q.Index < idx) :
    (stepMessage st idx m).questions =
      st.questions.map (resolveOne idx m (messageTime m) (resolveText m)) ++
        (if shouldTrackQuestion m (resolveText m) then [mkEntry idx m (messageTime m)]
         else []) ∧
    ((resolveOne idx m (messageTime m) (resolveText m) q).Resolved = true ↔
      messageTime m ≠ none ∧
      specNotEarlier (messageTime m) q.AskedAt = true ∧
      specC1Match m q = true) ∧
    ((resolveOne idx m (messageTime m) (resolveText m) q).Resolved = true →
      (∀ tv av, messageTime m = some tv → q.AskedAt = some av → av < tv →
        (resolveOne idx m (messageTime m) (resolveText m) q).ResponseMinutes =
          ((tv - av : Int) : ℚ) / 60) ∧
      (∀ tv, messageTime m = some tv →
        (resolveOne idx m (messageTime m) (resolveText m) q).ResponseHour = hourOf tv) ∧
      (resolveOne idx m (messageTime m) (resolveText m) q).Responders =
        (if senderDisplay m ≠ "" then
          respInsert q.Responders (normalizeName (senderDisplay m)) (senderDisplay m)
         else q.Responders)) := by
  have hnotle : ¬ idx ≤ q.Index := by omega
  refine ⟨stepMessage_questions st idx m, ?_, ?_⟩
  · cases hg : timeGate (messageTime m) q.AskedAt with
    | false =>
      have hq1 : resolveOne idx m (messageTime m) (resolveText m) q = q := by
        unfold resolveOne
        simp [hopen, hnotle, hg]
      rw [hq1, hopen]
      constructor
      · intro hfalse
        exact absurd hfalse (by simp)
      · rintro ⟨h1, h2, _⟩
        rw [timeGate_eq] at hg
        simp [h1, h2] at hg
    | true =>
      cases hmatch : matchesQuestionResponse m q (resolveText m) with
      | false =>
        have hq1 : resolveOne idx m (messageTime m) (resolveText m) q = q := by
          unfold resolveOne
          simp [hopen, hnotle, hg, hmatch]
        rw [hq1, hopen]
        rw [matches_eq_spec m q (resolveText m) hq] at hmatch
        constructor
        · intro hfalse
          exact absurd hfalse (by simp)
        · rintro ⟨_, _, h3⟩
          rw [hmatch] at h3
          exact absurd h3 (by simp)
      | true =>
        have hq1 : (resolveOne idx m (messageTime m) (resolveText m) q).Resolved = true := by
          unfold resolveOne
          simp [hopen, hnotle, hg, hmatch]
        rw [hq1]
        rw [matches_eq_spec m q (resolveText m) hq] at hmatch
        rw [timeGate_eq] at hg
        simp only [Bool.and_eq_true, decide_eq_true_eq] at hg
        constructor
        · intro _
          exact ⟨hg.1, hg.2, hmatch⟩
        · intro _
          rfl
  · intro hres
    have hg : timeGate (messageTime m) q.AskedAt = true := by
      cases h : timeGate (messageTime m) q.AskedAt with
      | true => rfl
      | false =>
        have hq1 : resolveOne idx m (messageTime m) (resolveText m) q = q := by
          unfold resolveOne
          simp [hopen, hnotle, h]
        rw [hq1, hopen] at hres
        exact absurd hres (by simp)
    have hmatch : matchesQuestionResponse m q (resolveText m) = true := by
      cases h : matchesQuestionResponse m q (resolveText m) with
      | true => rfl
      | false =>
        have hq1 : resolveOne idx m (messageTime m) (resolveText m) q = q := by
          unfold resolveOne
          simp [hopen, hnotle, hg, h]
        rw [hq1, hopen] at hres
        exact absurd hres (by simp)
    have hform : resolveOne idx m (messageTime m) (resolveText m) q =
        { q with
          Resolved := true
          ResponseMinutes :=
            match messageTime m, q.AskedAt with
            | some tv, some av =>
              if av < tv then ((tv - av : Int) : ℚ) / 60 else q.ResponseMinutes
            | _, _ => q.ResponseMinutes
          ResponseHour := match messageTime m with | none => -1 | some tv => hourOf tv
          Responders :=
            if senderDisplay m ≠ "" then
              respInsert q.Responders (normalizeName (senderDisplay m)) (senderDisplay m)
            else q.Responders } := by
      unfold resolveOne
      simp [hopen, hnotle, hg, hmatch]
    refine ⟨?_, ?_, ?_⟩
    · intro tv av htv hav hlt
      rw [hform]
      simp [htv, hav, hlt]
    · intro tv htv
      rw [hform]
      simp [htv]
    · rw [hform]

/-- C1 counterexample: both messages lack any derivable time.  The reply's derived
time is then not earlier than the entry's (equally unknown) asked-at time, the
normalized identities differ non-trivially, and the reply-reference's sender name
normalizes to the questioner — clause (a) — so the claim says the entry is resolved
(with response hour −1); but the code's resolution sweep skips every message with an
unknown derived time, and the entry stays outstanding. -/
theorem c1_counterexample :
    (passState [c1q, c1r]).questions = [c1entry] ∧
    messageTime c1r = none ∧
    specNotEarlier (messageTime c1r) c1entry.AskedAt = true ∧
    specC1Match c1r c1entry = true ∧
    c1entry.Resolved = false ∧
    (BuildSummary [c1q, c1r]).ReplyDebt.Resolved = [] ∧
    (BuildSummary [c1q, c1r]).ReplyDebt.Outstanding.length = 1 := by
  refine ⟨?_, ?_, ?_, ?_, ?_, ?_, ?_⟩ <;> decide

/-- C1 witness: at a concrete input with derivable times the resolution step fires. -/
theorem c1_question_resolution_witness :
    (resolveOne 1 wrMsg (messageTime wrMsg) (resolveText wrMsg)
      (mkEntry 0 wqMsg (messageTime wqMsg))).Resolved = true := by
  have h := c1_question_resolution initState 1 wrMsg (mkEntry 0 wqMsg (messageTime wqMsg))
    (by decide) (by decide) (by decide)
  exact h.2.1.mpr ⟨by decide, by decide, by decide⟩

end Summarize
